import Mathlib

/-!
# Verification of `MP3MetaDataReader.h`

A shallow embedding of the header-only C++ class `MP3MetaDataReader`
(ID3v1 / ID3v2 tag parsing) together with theorems about its behaviour.

Modelling conventions:

* A byte is a `Nat` in `[0, 256)`; an opened file is its byte list.
* `std::ifstream` is modelled by `ByteStream`: the bytes, the read
  position, the failbit, and a ghost log of the reads that were issued
  (start offset and number of bytes actually obtained).  `file.read(buf, n)`
  without an exception mask never throws: on a short read it stores the
  bytes it could obtain, sets the failbit and returns.  The buffer
  positions it does not overwrite keep their previous, indeterminate
  contents; that indeterminate memory is modelled by the parameter `junk`
  (one fixed byte value), universally quantified in the theorems that
  touch it.
* `std::string` values are byte lists (`List Nat`), so NUL bytes and
  high bytes are represented exactly.
* C++ `throw` is modelled by `Except.error`.
* The two loops of the source (`while (bytesRead < tagSize)` in
  `readID3v2Tag`, `for (size_t i = 0; ...; i += 2)` in `parseTextFrame`)
  are written with an explicit recursion-depth bound (`fuel`) so that all
  definitions compute by kernel reduction.  The bounds used by the
  entry points are always sufficient: the frame loop consumes at least
  10 declared bytes per pass, so `tagSize` passes suffice, and the
  UTF-16 loop advances `i` by two, so `textContent.length + 1` passes
  suffice.  The lemmas that reason about the loops carry the
  corresponding (always satisfied) fuel bound as a hypothesis.
-/

set_option maxRecDepth 100000

namespace MP3MetaDataReader

/-- The `MetaData` struct: four `std::string` fields, default empty. -/
structure MetaData where
  title : List Nat := []
  artist : List Nat := []
  album : List Nat := []
  year : List Nat := []
deriving DecidableEq

/-- An opened `std::ifstream` over a byte list: read position, failbit,
and a ghost log of issued reads as (start offset, bytes obtained). -/
structure ByteStream where
  data : List Nat
  pos : Nat
  fail : Bool
  reads : List (Nat × Nat)
deriving DecidableEq

/-- A freshly opened stream. -/
def openStream (data : List Nat) : ByteStream :=
  { data := data, pos := 0, fail := false, reads := [] }

/-- `file.read(buf, n)`, returning the contents of the n-byte buffer after
the call.  With the failbit already set, nothing is extracted and the
buffer keeps its indeterminate contents (`junk`).  Otherwise the
available bytes are stored; if fewer than `n` are available the failbit
is set and the rest of the buffer keeps its indeterminate contents. -/
def readBuf (junk : Nat) (n : Nat) (s : ByteStream) : List Nat × ByteStream :=
  if s.fail then
    (List.replicate n junk, s)
  else
    let avail := s.data.length - s.pos
    let got := min n avail
    if n ≤ avail then
      ((s.data.drop s.pos).take n,
       { s with pos := s.pos + n, reads := s.reads ++ [(s.pos, n)] })
    else
      ((s.data.drop s.pos).take n ++ List.replicate (n - got) junk,
       { s with pos := s.pos + got, fail := true, reads := s.reads ++ [(s.pos, got)] })

/-- `file.seekg(0, std::ios::beg)`.  With the failbit set the sentry
fails and the position is unchanged. -/
def seekStart (s : ByteStream) : ByteStream :=
  if s.fail then s else { s with pos := 0 }

/-- `file.seekg(-128, std::ios::end)`.  With the failbit set the sentry
fails; seeking before the start of the file fails and sets the failbit. -/
def seekEnd128 (s : ByteStream) : ByteStream :=
  if s.fail then s
  else if 128 ≤ s.data.length then { s with pos := s.data.length - 128 }
  else { s with fail := true }

/-- The value of a (signed, 8-bit) C++ `char` holding byte `b`, after
integral promotion to `int`. -/
def toChar8 (b : Nat) : Int :=
  if b < 128 then (b : Int) else (b : Int) - 256

/-- `decodeSynchsafeInt`: `((buffer[0] & 0x7F) << 21) | ((buffer[1] & 0x7F) << 14) |
((buffer[2] & 0x7F) << 7) | (buffer[3] & 0x7F)`, computed on promoted
`char` values exactly as C does (`&`, `<<` and `|` on `int`). -/
def decodeSynchsafeInt (b0 b1 b2 b3 : Nat) : Int :=
  Int.lor
    (Int.lor
      (Int.lor (((toChar8 b0).land 127) <<< (21 : Int))
        (((toChar8 b1).land 127) <<< (14 : Int)))
      (((toChar8 b2).land 127) <<< (7 : Int)))
    ((toChar8 b3).land 127)

/-- The `for (size_t i = 0; i < textContent.size(); i += 2)` loop of
`parseTextFrame`: it appends `textContent[i + 1]`.  `std::string`'s
`operator[]` at position `size()` returns the null terminator, so the
access is `getD _ 0` (for `i + 1 < size()` it is the real byte, for
`i + 1 = size()` it is `0`; `i + 1 > size()` never occurs).  `fuel`
bounds the recursion depth and is always sufficient at the call site. -/
def utf16Loop (textContent : List Nat) : Nat → Nat → List Nat
  | 0, _ => []
  | fuel + 1, i =>
    if i < textContent.length then
      textContent.getD (i + 1) 0 :: utf16Loop textContent fuel (i + 2)
    else []

/-- `parseTextFrame`. -/
def parseTextFrame (content : List Nat) : List Nat :=
  if content.isEmpty then []
  else
    let encoding := content.getD 0 0
    let textContent := content.drop 1
    if encoding = 0 then textContent
    else if encoding = 1 then utf16Loop textContent (textContent.length + 1) 0
    else textContent

/-- Decidable equality for parse results, so that concrete runs can be
settled by `decide`. -/
instance : DecidableEq (Except String MetaData) := fun a b =>
  match a, b with
  | .ok x, .ok y =>
    match decEq x y with
    | isTrue h => isTrue (h ▸ rfl)
    | isFalse h => isFalse fun he => h (Except.ok.inj he)
  | .error x, .error y =>
    match decEq x y with
    | isTrue h => isTrue (h ▸ rfl)
    | isFalse h => isFalse fun he => h (Except.error.inj he)
  | .ok _, .error _ => isFalse fun he => Except.noConfusion he
  | .error _, .ok _ => isFalse fun he => Except.noConfusion he

/-- `readID3v1Tag`: seek 128 bytes before the end, read 128 bytes, check
the `"TAG"` marker, slice the fixed-width fields; otherwise
`throw std::runtime_error("No ID3v1 tag found in file.")`. -/
def readID3v1Tag (junk : Nat) (s : ByteStream) (metadata : MetaData) :
    Except String MetaData × ByteStream :=
  let s1 := seekEnd128 s
  let p := readBuf junk 128 s1
  let buffer := p.1
  if buffer.getD 0 0 = 84 ∧ buffer.getD 1 0 = 65 ∧ buffer.getD 2 0 = 71 then
    (.ok { metadata with
            title := (buffer.drop 3).take 30
            artist := (buffer.drop 33).take 30
            album := (buffer.drop 63).take 30
            year := (buffer.drop 93).take 4 }, p.2)
  else
    (.error "No ID3v1 tag found in file.", p.2)

/-- One invocation of the text-frame decoder, as logged in the ghost call
list: the frame identifier and the content passed to `parseTextFrame`. -/
abbrev DecoderCall := List Nat × List Nat

/-- The body of the `while (bytesRead < tagSize)` loop of `readID3v2Tag`:
read a 10-byte frame header, decode the synchsafe frame size, and when
`frameSize > 0` read that many content bytes and dispatch the recognized
identifiers (`"TIT2"`, `"TPE1"`, `"TALB"`, `"TYER"`) to `parseTextFrame`.
Returns the updated record, stream and ghost call log, and the decoded
`frameSize` (used by the loop for the `bytesRead` update and exit test). -/
def frameStep (junk : Nat) (metadata : MetaData) (s : ByteStream)
    (calls : List DecoderCall) :
    MetaData × ByteStream × List DecoderCall × Nat :=
  let p1 := readBuf junk 10 s
  let frameHeader := p1.1
  let frameID := frameHeader.take 4
  let frameSize :=
    (decodeSynchsafeInt (frameHeader.getD 4 0) (frameHeader.getD 5 0)
      (frameHeader.getD 6 0) (frameHeader.getD 7 0)).toNat
  if 0 < frameSize then
    let p2 := readBuf junk frameSize p1.2
    let content := p2.1
    if frameID = [84, 73, 84, 50] then
      ({ metadata with title := parseTextFrame content }, p2.2,
       calls ++ [(frameID, content)], frameSize)
    else if frameID = [84, 80, 69, 49] then
      ({ metadata with artist := parseTextFrame content }, p2.2,
       calls ++ [(frameID, content)], frameSize)
    else if frameID = [84, 65, 76, 66] then
      ({ metadata with album := parseTextFrame content }, p2.2,
       calls ++ [(frameID, content)], frameSize)
    else if frameID = [84, 89, 69, 82] then
      ({ metadata with year := parseTextFrame content }, p2.2,
       calls ++ [(frameID, content)], frameSize)
    else (metadata, p2.2, calls, frameSize)
  else (metadata, p1.2, calls, frameSize)

/-- The `while (bytesRead < tagSize)` loop of `readID3v2Tag`.  Each pass
runs `frameStep`, adds `10 + frameSize` to `bytesRead`, and exits when
`bytesRead >= tagSize`.  `calls` is a ghost log of the `parseTextFrame`
invocations.  `fuel` bounds the recursion depth and is always sufficient
at the call site (each pass adds at least 10 to `bytesRead`, which
starts at 10 and stays below `tagSize`, so `tagSize` passes suffice). -/
def id3v2Loop (junk tagSize : Nat) :
    Nat → MetaData → ByteStream → List DecoderCall → Nat →
      MetaData × ByteStream × List DecoderCall
  | 0, metadata, s, calls, _ => (metadata, s, calls)
  | fuel + 1, metadata, s, calls, bytesRead =>
    if bytesRead < tagSize then
      let st := frameStep junk metadata s calls
      if tagSize ≤ bytesRead + 10 + st.2.2.2 then (st.1, st.2.1, st.2.2.1)
      else id3v2Loop junk tagSize fuel st.1 st.2.1 st.2.2.1
        (bytesRead + 10 + st.2.2.2)
    else (metadata, s, calls)

/-- `readID3v2Tag`: seek to the start, read the 10-byte tag header, decode
the synchsafe total tag size from header bytes 6..9, then walk the frame
sequence starting from `bytesRead = 10`.  `decodeSynchsafeInt` is
non-negative (`decodeSynchsafeInt_eq` below), so taking `toNat` of the
C++ `int` is exact. -/
def readID3v2Tag (junk : Nat) (s : ByteStream) (metadata : MetaData) :
    MetaData × ByteStream × List DecoderCall :=
  let s1 := seekStart s
  let p := readBuf junk 10 s1
  let header := p.1
  let tagSize :=
    (decodeSynchsafeInt (header.getD 6 0) (header.getD 7 0)
      (header.getD 8 0) (header.getD 9 0)).toNat
  id3v2Loop junk tagSize tagSize metadata p.2 [] 10

/-- `hasID3v2Tag`: seek to the start, read 3 bytes, compare with `"ID3"`. -/
def hasID3v2Tag (junk : Nat) (s : ByteStream) : Bool × ByteStream :=
  let s1 := seekStart s
  let p := readBuf junk 3 s1
  (decide (p.1.getD 0 0 = 73 ∧ p.1.getD 1 0 = 68 ∧ p.1.getD 2 0 = 51), p.2)

/-- Ghost record of which reader `readMetadata` ran. -/
inductive TagPath
  | modern
  | legacy
deriving DecidableEq

/-- `readMetadata` on an already-opened byte source (the open-failure
branch concerns the file system and is outside the byte-level model):
default-construct the record, dispatch on `hasID3v2Tag`, return the
record.  The second component is the ghost path marker. -/
def readMetadata (junk : Nat) (data : List Nat) :
    Except String MetaData × TagPath :=
  let metadata : MetaData := {}
  let p := hasID3v2Tag junk (openStream data)
  if p.1 then (.ok (readID3v2Tag junk p.2 metadata).1, .modern)
  else ((readID3v1Tag junk p.2 metadata).1, .legacy)

/-! ### Concrete inputs and an encoder used to state the theorems -/

/-- Synchsafe encoding of `n`: four bytes, seven value bits each
(inverse of `decodeSynchsafeInt` for `n < 2 ^ 28`). -/
def ssEnc (n : Nat) : List Nat :=
  [n >>> 21 &&& 127, n >>> 14 &&& 127, n >>> 7 &&& 127, n &&& 127]

/-- A modern-tag file whose single frame is a `TIT2` frame with content
`0 :: P` (encoding byte 0, then the text `P`); the declared total size
`21 + P.length` counts the 10-byte tag header, the 10-byte frame header
and the `1 + P.length` content bytes, and equals the file length. -/
def oneTit2File (P : List Nat) : List Nat :=
  [73, 68, 51, 4, 0, 0] ++ ssEnc (21 + P.length) ++
    [84, 73, 84, 50] ++ ssEnc (1 + P.length) ++ [0, 0] ++ (0 :: P)

/-- A modern-tag file declaring total size 30, with one frame declaring
size 100: 10-byte header, `TIT2` frame header, then 100 bytes of
adjacent data which all lie beyond the declared 30-byte boundary. -/
def overrunFile : List Nat :=
  [73, 68, 51, 4, 0, 0, 0, 0, 0, 30] ++
    [84, 73, 84, 50, 0, 0, 0, 100, 0, 0] ++ List.replicate 100 7

/-- A modern-tag file declaring total size 42, containing one `TIT2`
frame declaring size 6 whose content region is laid out as encoding
byte 0 plus the bytes `H`,`e`,`l`,`l`,`o`,`0x00`, followed by zero
padding (the exact scenario of the claim, with the declared size 6
taken literally). -/
def hello6File : List Nat :=
  [73, 68, 51, 4, 0, 0, 0, 0, 0, 42] ++
    [84, 73, 84, 50, 0, 0, 0, 6, 0, 0] ++
    [0, 72, 101, 108, 108, 111] ++ [0] ++ List.replicate 19 0

/-- The same scenario with the frame size declared as 7, the number of
content bytes actually present (encoding byte plus six text bytes). -/
def hello7File : List Nat :=
  [73, 68, 51, 4, 0, 0, 0, 0, 0, 42] ++
    [84, 73, 84, 50, 0, 0, 0, 7, 0, 0] ++
    [0, 72, 101, 108, 108, 111, 0] ++ List.replicate 20 0

/-- A modern-tag file declaring total size 20 whose single frame has
identifier `fid` and declared size 0 (no content bytes at all). -/
def zeroSizeFrameFile (fid : List Nat) : List Nat :=
  [73, 68, 51, 4, 0, 0, 0, 0, 0, 20] ++ fid ++ [0, 0, 0, 0, 0, 0]

/-- A modern-tag file with a `TIT2` frame of size 2 (used to witness a
logged decoder invocation). -/
def smallTit2File : List Nat :=
  [73, 68, 51, 4, 0, 0, 0, 0, 0, 22] ++
    [84, 73, 84, 50, 0, 0, 0, 2, 0, 0] ++ [0, 65]

/-- The two bytes of one little-endian UTF-16 code unit, low byte first
(used to state the claims about encoding 1). -/
def pairBytes (p : Nat × Nat) : List Nat := [p.1, p.2]

/-- A 128-byte legacy-tag file: the `"TAG"` marker followed by 125
padding bytes (used as a witness input). -/
def legacyFile : List Nat := [84, 65, 71] ++ List.replicate 125 66

/-! ### Helper lemmas -/

/-- `Nat.ldiff` through kernel-accelerated operations. -/
lemma ldiff_eq_xor_and (x m : Nat) : Nat.ldiff x m = x ^^^ (x &&& m) := by
  apply Nat.eq_of_testBit_eq
  intro i
  simp only [Nat.testBit_ldiff, Nat.testBit_xor, Nat.testBit_land]
  cases x.testBit i <;> cases m.testBit i <;> rfl

lemma high_byte_mask : ∀ b, 128 ≤ b → b < 256 →
    (127 ^^^ (127 &&& (255 - b)) : Nat) = b &&& 127 := by decide

/-- `(char)b & 0x7F` equals `b & 0x7F` also for bytes with the high bit
set: the two's complement representation of the negative `char` value
keeps the low seven bits of the byte. -/
lemma toChar8_land (b : Nat) (hb : b < 256) :
    (toChar8 b).land 127 = ((b &&& 127 : Nat) : Int) := by
  by_cases h : b < 128
  · simp only [toChar8, if_pos h]
    rfl
  · simp only [toChar8, if_neg h]
    have hneg : (b : Int) - 256 = Int.negSucc (255 - b) := by
      rw [Int.negSucc_eq]
      omega
    rw [hneg]
    have hld : (Int.negSucc (255 - b)).land 127 =
        ((Nat.ldiff 127 (255 - b) : Nat) : Int) := rfl
    rw [hld, ldiff_eq_xor_and, high_byte_mask b (by omega) hb]

lemma coe_shiftLeft (m k : Nat) :
    ((m : Int) <<< ((k : Nat) : Int)) = ((m <<< k : Nat) : Int) :=
  Int.shiftLeft_coe_nat m k

/-- The decoder, rewritten over `Nat`: it computes exactly the masked
big-endian-ish 7-bit recombination of the claim. -/
lemma decodeSynchsafeInt_eq (b0 b1 b2 b3 : Nat)
    (h0 : b0 < 256) (h1 : b1 < 256) (h2 : b2 < 256) (h3 : b3 < 256) :
    decodeSynchsafeInt b0 b1 b2 b3 =
      (((b0 &&& 127) <<< 21 ||| (b1 &&& 127) <<< 14 ||| (b2 &&& 127) <<< 7 |||
        (b3 &&& 127) : Nat) : Int) := by
  unfold decodeSynchsafeInt
  rw [toChar8_land b0 h0, toChar8_land b1 h1, toChar8_land b2 h2, toChar8_land b3 h3]
  rw [show ((21 : Int)) = ((21 : Nat) : Int) by norm_num,
      show ((14 : Int)) = ((14 : Nat) : Int) by norm_num,
      show ((7 : Int)) = ((7 : Nat) : Int) by norm_num]
  rw [coe_shiftLeft, coe_shiftLeft, coe_shiftLeft]
  rfl

lemma masked_shift_lt (b k : Nat) (hk : k ≤ 21) : (b &&& 127) <<< k < 2 ^ 28 := by
  rw [Nat.shiftLeft_eq]
  have h7 : b &&& 127 < 2 ^ 7 := Nat.and_lt_two_pow b (by norm_num)
  calc (b &&& 127) * 2 ^ k < 2 ^ 7 * 2 ^ k :=
        Nat.mul_lt_mul_of_lt_of_le h7 (Nat.le_refl _) (Nat.pos_pow_of_pos k (by norm_num))
    _ = 2 ^ (7 + k) := by rw [Nat.pow_add]
    _ ≤ 2 ^ 28 := Nat.pow_le_pow_right (by norm_num) (by omega)

/-! ### C4 -/

/-- C4: for every 4-byte input `b0,b1,b2,b3` (including bytes with the
high bit set), the synchsafe decoder returns the non-negative integer
`(b0 & 0x7F) << 21 | (b1 & 0x7F) << 14 | (b2 & 0x7F) << 7 | (b3 & 0x7F)`
(a 32-bit value), and never fails: `decodeSynchsafeInt` is total and its
result is the stated recombination, non-negative and below `2 ^ 31`. -/
theorem c4_decodeSynchsafeInt_spec (b0 b1 b2 b3 : Nat)
    (h0 : b0 < 256) (h1 : b1 < 256) (h2 : b2 < 256) (h3 : b3 < 256) :
    decodeSynchsafeInt b0 b1 b2 b3 =
      (((b0 &&& 127) <<< 21 ||| (b1 &&& 127) <<< 14 ||| (b2 &&& 127) <<< 7 |||
        (b3 &&& 127) : Nat) : Int) ∧
    0 ≤ decodeSynchsafeInt b0 b1 b2 b3 ∧
    decodeSynchsafeInt b0 b1 b2 b3 < 2 ^ 31 := by
  have he := decodeSynchsafeInt_eq b0 b1 b2 b3 h0 h1 h2 h3
  refine ⟨he, ?_, ?_⟩
  · rw [he]; exact Int.natCast_nonneg _
  · rw [he]
    have hn : ((b0 &&& 127) <<< 21 ||| (b1 &&& 127) <<< 14 ||| (b2 &&& 127) <<< 7 |||
        (b3 &&& 127) : Nat) < 2 ^ 28 := by
      refine Nat.or_lt_two_pow (Nat.or_lt_two_pow (Nat.or_lt_two_pow ?_ ?_) ?_) ?_
      · exact masked_shift_lt b0 21 (by norm_num)
      · exact masked_shift_lt b1 14 (by norm_num)
      · exact masked_shift_lt b2 7 (by norm_num)
      · have := Nat.and_lt_two_pow b3 (show (127 : Nat) < 2 ^ 7 by norm_num)
        omega
    have hb : ((b0 &&& 127) <<< 21 ||| (b1 &&& 127) <<< 14 ||| (b2 &&& 127) <<< 7 |||
        (b3 &&& 127) : Nat) < 2 ^ 31 := by omega
    exact_mod_cast hb

/-- C4 witness: the theorem applied at the all-high-bit input 255,255,255,255. -/
theorem c4_decodeSynchsafeInt_spec_witness :
    (255 : Nat) < 256 ∧
    (decodeSynchsafeInt 255 255 255 255 =
      ((((255 : Nat) &&& 127) <<< 21 ||| ((255 : Nat) &&& 127) <<< 14 |||
        ((255 : Nat) &&& 127) <<< 7 ||| ((255 : Nat) &&& 127) : Nat) : Int) ∧
    0 ≤ decodeSynchsafeInt 255 255 255 255 ∧
    decodeSynchsafeInt 255 255 255 255 < 2 ^ 31) :=
  ⟨by decide,
   c4_decodeSynchsafeInt_spec 255 255 255 255 (by decide) (by decide) (by decide) (by decide)⟩

/-! ### The UTF-16 pair loop -/

lemma utf16Loop_nil (f i : Nat) : utf16Loop [] f i = [] := by
  cases f <;> simp [utf16Loop]

lemma utf16Loop_shift (a b : Nat) (t : List Nat) :
    ∀ f i, utf16Loop (a :: b :: t) f (i + 2) = utf16Loop t f i := by
  intro f
  induction f with
  | zero => intro i; rfl
  | succ f ih =>
    intro i
    simp only [utf16Loop, List.length_cons]
    by_cases h : i < t.length
    · rw [if_pos (by omega), if_pos h]
      have hg : (a :: b :: t).getD (i + 2 + 1) 0 = t.getD (i + 1) 0 := by
        simp [List.getD_cons_succ]
      rw [hg, ih (i + 2)]
    · rw [if_neg (by omega), if_neg h]

lemma utf16Loop_cons₂ (a b : Nat) (t : List Nat) (f : Nat) :
    utf16Loop (a :: b :: t) (f + 1) 0 = b :: utf16Loop t f 0 := by
  simp only [utf16Loop, List.length_cons]
  rw [if_pos (by omega)]
  have hg : (a :: b :: t).getD 1 0 = b := by simp
  rw [hg, utf16Loop_shift]

/-- On a one-byte tail the loop reads `textContent[1]`, which is the
null terminator, and stops. -/
lemma utf16Loop_single (a : Nat) (f : Nat) : utf16Loop [a] (f + 1) 0 = [0] := by
  simp only [utf16Loop, List.length_singleton]
  rw [if_pos (by omega)]
  have h2 : utf16Loop [a] f (0 + 2) = [] := by
    cases f <;> simp [utf16Loop]
  simp [h2]

lemma flat_pairs_length : ∀ pairs : List (Nat × Nat),
    ((pairs.map pairBytes).flatten).length = 2 * pairs.length := by
  intro pairs
  induction pairs with
  | nil => simp
  | cons p ps ih =>
    simp only [List.map_cons, List.flatten_cons, pairBytes, List.length_append,
      List.length_cons, List.length_nil, ih]
    omega

lemma utf16Loop_pairs : ∀ (pairs : List (Nat × Nat)) (f : Nat), pairs.length ≤ f →
    utf16Loop (pairs.map pairBytes).flatten f 0 = pairs.map Prod.snd := by
  intro pairs
  induction pairs with
  | nil => intro f _; simp [utf16Loop_nil]
  | cons p ps ih =>
    intro f hf
    obtain ⟨g, rfl⟩ : ∃ g, f = g + 1 :=
      ⟨f - 1, by simp only [List.length_cons] at hf; omega⟩
    simp only [List.map_cons, List.flatten_cons, pairBytes, List.cons_append,
      List.nil_append]
    rw [utf16Loop_cons₂]
    have hps : ps.length ≤ g := by
      simp only [List.length_cons] at hf
      omega
    rw [ih g hps]

/-- On an odd-length tail the loop yields one byte per pass, the last
pass reading the null terminator. -/
lemma utf16Loop_odd : ∀ (n : Nat) (t : List Nat) (f : Nat),
    t.length = 2 * n + 1 → n + 1 ≤ f →
    (utf16Loop t f 0).length = n + 1 ∧ (utf16Loop t f 0).getLast? = some 0 := by
  intro n
  induction n with
  | zero =>
    intro t f ht hf
    cases t with
    | nil => simp at ht
    | cons a t0 =>
      cases t0 with
      | nil =>
        obtain ⟨g, rfl⟩ : ∃ g, f = g + 1 := ⟨f - 1, by omega⟩
        rw [utf16Loop_single]
        exact ⟨rfl, rfl⟩
      | cons b t1 => simp only [List.length_cons] at ht; omega
  | succ n ih =>
    intro t f ht hf
    cases t with
    | nil => simp at ht
    | cons a t0 =>
      cases t0 with
      | nil => simp only [List.length_cons, List.length_nil] at ht; omega
      | cons b t' =>
        have ht' : t'.length = 2 * n + 1 := by
          simp only [List.length_cons] at ht
          omega
        obtain ⟨g, rfl⟩ : ∃ g, f = g + 1 := ⟨f - 1, by omega⟩
        rw [utf16Loop_cons₂]
        obtain ⟨hlen, hlast⟩ := ih t' g ht' (by omega)
        refine ⟨by simp [hlen], ?_⟩
        obtain ⟨c, l', hl⟩ : ∃ c l', utf16Loop t' g 0 = c :: l' := by
          cases hu : utf16Loop t' g 0 with
          | nil => rw [hu] at hlen; simp at hlen
          | cons c l' => exact ⟨c, l', rfl⟩
        rw [hl]
        rw [hl] at hlast
        rw [List.getLast?_cons_cons]
        exact hlast

/-- `parseTextFrame` on a nonempty payload with encoding byte 1 runs the
pair loop on the tail, with fuel `tail.length + 1`. -/
lemma parseTextFrame_enc1 (t : List Nat) :
    parseTextFrame (1 :: t) = utf16Loop t (t.length + 1) 0 := by
  simp [parseTextFrame]

/-! ### C3 -/

/-- C3: for every frame payload whose first byte (the encoding
indicator) is 1 and whose remaining bytes form N complete 2-byte
little-endian code units, the decoder returns exactly the N characters
obtained by keeping the second byte of each pair, in order. -/
theorem c3_parseTextFrame_utf16_pairs (pairs : List (Nat × Nat)) :
    parseTextFrame (1 :: (pairs.map pairBytes).flatten) = pairs.map Prod.snd := by
  rw [parseTextFrame_enc1, flat_pairs_length]
  exact utf16Loop_pairs pairs (2 * pairs.length + 1) (by omega)

/-! ### C10 -/

/-- C10: for every payload with encoding indicator 1 whose text portion
has odd length `2k + 1`, the pair loop's final pass indexes one past the
last text byte (the string's null terminator), and the decoder returns
`k + 1` characters whose final character is the NUL byte. -/
theorem c10_parseTextFrame_odd (t : List Nat) (k : Nat) (hk : t.length = 2 * k + 1) :
    (parseTextFrame (1 :: t)).length = k + 1 ∧
    (parseTextFrame (1 :: t)).getLast? = some 0 := by
  rw [parseTextFrame_enc1]
  exact utf16Loop_odd k t (t.length + 1) hk (by omega)

/-- C10 witness: the one-byte text `[65]` (`k = 0`) decodes to the
single NUL character. -/
theorem c10_parseTextFrame_odd_witness :
    ([65] : List Nat).length = 2 * 0 + 1 ∧
    ((parseTextFrame (1 :: [65])).length = 0 + 1 ∧
     (parseTextFrame (1 :: [65])).getLast? = some 0) :=
  ⟨by decide, c10_parseTextFrame_odd [65] 0 (by decide)⟩

/-! ### Reads, seeks and the two tag readers -/

/-- A read that is fully available: the buffer receives exactly the next
`n` bytes, the position advances by `n`, and the read is logged. -/
lemma readBuf_ok (junk n : Nat) (s : ByteStream) (hf : s.fail = false)
    (h : s.pos + n ≤ s.data.length) :
    readBuf junk n s = ((s.data.drop s.pos).take n,
      { s with pos := s.pos + n, reads := s.reads ++ [(s.pos, n)] }) := by
  simp only [readBuf, hf]
  rw [if_neg (by simp)]
  rw [if_pos (by omega)]

/-- The three leading `getD` reads of a list of length at least 3
determine, and are determined by, its 3-byte prefix. -/
lemma getD3_iff_take3 (l : List Nat) (h : 3 ≤ l.length) (x y z : Nat) :
    (l.getD 0 0 = x ∧ l.getD 1 0 = y ∧ l.getD 2 0 = z) ↔ l.take 3 = [x, y, z] := by
  cases l with
  | nil => simp at h
  | cons a l1 =>
    cases l1 with
    | nil => simp only [List.length_cons, List.length_nil] at h; omega
    | cons b l2 =>
      cases l2 with
      | nil => simp only [List.length_cons, List.length_nil] at h; omega
      | cons c r => simp

/-- The detector on a fresh stream with at least 3 bytes: it answers
whether the file starts with `"ID3"` and leaves the position at 3. -/
lemma hasID3v2Tag_eval (junk : Nat) (data : List Nat) (h3 : 3 ≤ data.length) :
    hasID3v2Tag junk (openStream data) =
      (decide (data.take 3 = [73, 68, 51]),
       { data := data, pos := 3, fail := false, reads := [(0, 3)] }) := by
  simp only [hasID3v2Tag, openStream, seekStart]
  rw [if_neg (by simp)]
  rw [readBuf_ok junk 3 _ rfl (by simpa using h3)]
  simp only [List.drop_zero]
  refine Prod.ext ?_ ?_
  · show decide _ = decide _
    rw [decide_eq_decide]
    have hlen : (data.take 3).length = 3 := by
      rw [List.length_take]
      omega
    rw [getD3_iff_take3 (data.take 3) (by omega) 73 68 51]
    rw [List.take_take]
    norm_num
  · simp

lemma drop_last128_take (data : List Nat) (h128 : 128 ≤ data.length) :
    (data.drop (data.length - 128)).take 128 = data.drop (data.length - 128) :=
  List.take_of_length_le (by rw [List.length_drop]; omega)

/-- The legacy reader on a non-failed stream with at least 128 bytes:
it reads the last 128 bytes, checks the `"TAG"` marker, and either
slices the four fields or fails. -/
lemma readID3v1Tag_fst (junk : Nat) (s : ByteStream) (metadata : MetaData)
    (hf : s.fail = false) (h128 : 128 ≤ s.data.length) :
    (readID3v1Tag junk s metadata).1 =
      if (s.data.drop (s.data.length - 128)).getD 0 0 = 84 ∧
          (s.data.drop (s.data.length - 128)).getD 1 0 = 65 ∧
          (s.data.drop (s.data.length - 128)).getD 2 0 = 71 then
        .ok { metadata with
                title := ((s.data.drop (s.data.length - 128)).drop 3).take 30,
                artist := ((s.data.drop (s.data.length - 128)).drop 33).take 30,
                album := ((s.data.drop (s.data.length - 128)).drop 63).take 30,
                year := ((s.data.drop (s.data.length - 128)).drop 93).take 4 }
      else .error "No ID3v1 tag found in file." := by
  have h1 : seekEnd128 s = { s with pos := s.data.length - 128 } := by
    simp only [seekEnd128, hf]
    rw [if_neg (by simp), if_pos h128]
  have h2 : readBuf junk 128 { s with pos := s.data.length - 128 } =
      (s.data.drop (s.data.length - 128),
       { s with pos := (s.data.length - 128) + 128,
                reads := s.reads ++ [(s.data.length - 128, 128)] }) := by
    rw [readBuf_ok junk 128 ({ s with pos := s.data.length - 128 }) hf (by simp; omega)]
    simp [drop_last128_take s.data h128]
  simp only [readID3v1Tag, h1, h2]
  split <;> rfl

/-! ### C6 -/

/-- C6: `readMetadata` runs the Modern Tag Reader if and only if the
first 3 bytes of the source are the ASCII sequence `I`,`D`,`3` (even if
a legacy trailer is also present), and otherwise runs the Legacy Tag
Reader; stated for every source that can supply the 3 detector bytes. -/
theorem c6_detects_id3v2 (junk : Nat) (data : List Nat) (h3 : 3 ≤ data.length) :
    (readMetadata junk data).2 = TagPath.modern ↔ data.take 3 = [73, 68, 51] := by
  simp only [readMetadata, hasID3v2Tag_eval junk data h3]
  by_cases hid : data.take 3 = [73, 68, 51]
  · simp [hid]
  · simp [hid]

/-- C6 witness: the 3-byte file `"ID3"` takes the modern path. -/
theorem c6_detects_id3v2_witness : 3 ≤ ([73, 68, 51] : List Nat).length ∧
    ((readMetadata 0 [73, 68, 51]).2 = TagPath.modern ↔
      ([73, 68, 51] : List Nat).take 3 = [73, 68, 51]) :=
  ⟨by decide, c6_detects_id3v2 0 [73, 68, 51] (by decide)⟩

/-! ### C5 -/

/-- C5: on an input whose last 128 bytes begin with `T`,`A`,`G`, the
Legacy Tag Reader sets title to bytes 3..33, artist to bytes 33..63,
album to bytes 63..93 and year to bytes 93..97 of that 128-byte block,
each copied byte-for-byte with no trimming. -/
theorem c5_readID3v1Tag_slices (junk : Nat) (s : ByteStream) (metadata : MetaData)
    (hf : s.fail = false) (h128 : 128 ≤ s.data.length)
    (htag : (s.data.drop (s.data.length - 128)).take 3 = [84, 65, 71]) :
    (readID3v1Tag junk s metadata).1 =
      .ok { metadata with
              title := ((s.data.drop (s.data.length - 128)).drop 3).take 30,
              artist := ((s.data.drop (s.data.length - 128)).drop 33).take 30,
              album := ((s.data.drop (s.data.length - 128)).drop 63).take 30,
              year := ((s.data.drop (s.data.length - 128)).drop 93).take 4 } := by
  have hlen : 3 ≤ (s.data.drop (s.data.length - 128)).length := by
    rw [List.length_drop]; omega
  rw [readID3v1Tag_fst junk s metadata hf h128,
    if_pos ((getD3_iff_take3 _ hlen 84 65 71).mpr htag)]

/-- C5 witness: a 128-byte file `"TAG"` plus 125 padding bytes `66`. -/
theorem c5_readID3v1Tag_slices_witness :
    (openStream legacyFile).fail = false ∧
    128 ≤ (openStream legacyFile).data.length ∧
    (readID3v1Tag 0 (openStream legacyFile) {}).1 =
      .ok { title := (((openStream legacyFile).data.drop
              ((openStream legacyFile).data.length - 128)).drop 3).take 30,
            artist := (((openStream legacyFile).data.drop
              ((openStream legacyFile).data.length - 128)).drop 33).take 30,
            album := (((openStream legacyFile).data.drop
              ((openStream legacyFile).data.length - 128)).drop 63).take 30,
            year := (((openStream legacyFile).data.drop
              ((openStream legacyFile).data.length - 128)).drop 93).take 4 } :=
  ⟨rfl, by decide, c5_readID3v1Tag_slices 0 (openStream legacyFile) {} rfl (by decide) (by decide)⟩

/-! ### C7 -/

/-- C7: an input taking the legacy path (no `"ID3"` prefix) whose last
128 bytes do not begin with `T`,`A`,`G` makes `readMetadata` fail with
the no-legacy-tag error, surfaced to the caller. -/
theorem c7_no_legacy_tag_error (junk : Nat) (data : List Nat) (h128 : 128 ≤ data.length)
    (hid : data.take 3 ≠ [73, 68, 51])
    (htag : (data.drop (data.length - 128)).take 3 ≠ [84, 65, 71]) :
    (readMetadata junk data).1 = .error "No ID3v1 tag found in file." := by
  simp only [readMetadata, hasID3v2Tag_eval junk data (by omega)]
  rw [if_neg (by simp [hid])]
  rw [readID3v1Tag_fst junk _ {} rfl (by simpa using h128)]
  have hlen : 3 ≤ (data.drop (data.length - 128)).length := by
    rw [List.length_drop]; omega
  rw [if_neg (fun hc => htag ((getD3_iff_take3 _ hlen 84 65 71).mp (by simpa using hc)))]

/-- C7 witness: 128 zero bytes (no `"ID3"` prefix, no `"TAG"` marker). -/
theorem c7_no_legacy_tag_error_witness :
    128 ≤ (List.replicate 128 0 : List Nat).length ∧
    (readMetadata 0 (List.replicate 128 0)).1 = .error "No ID3v1 tag found in file." :=
  ⟨by decide, c7_no_legacy_tag_error 0 (List.replicate 128 0) (by decide) (by decide) (by decide)⟩

/-! ### The frame loop -/

/-- The buffer handed back by `file.read(buf, n)` always holds `n`
bytes (obtained bytes, then indeterminate ones). -/
lemma readBuf_length (junk n : Nat) (s : ByteStream) :
    (readBuf junk n s).1.length = n := by
  by_cases hfail : s.fail = true
  · simp [readBuf, hfail]
  · replace hfail : s.fail = false := by revert hfail; cases s.fail <;> simp
    by_cases hav : n ≤ s.data.length - s.pos
    · simp [readBuf, hfail, hav, List.length_take]
    · simp [readBuf, hfail, hav, List.length_take]

/-- One pass of the frame loop only logs decoder invocations whose
content is nonempty: the dispatch sits under the `frameSize > 0` guard
and the content buffer has exactly `frameSize` bytes. -/
lemma frameStep_calls (junk : Nat) (metadata : MetaData) (s : ByteStream)
    (calls : List DecoderCall)
    (h : ∀ call ∈ calls, call.2.length ≠ 0) :
    ∀ call ∈ (frameStep junk metadata s calls).2.2.1, call.2.length ≠ 0 := by
  intro call hc
  simp only [frameStep] at hc
  split at hc
  · rename_i hfs
    split at hc
    · simp only [List.mem_append, List.mem_singleton] at hc
      rcases hc with hc | rfl
      · exact h call hc
      · simp only [readBuf_length]
        omega
    · split at hc
      · simp only [List.mem_append, List.mem_singleton] at hc
        rcases hc with hc | rfl
        · exact h call hc
        · simp only [readBuf_length]
          omega
      · split at hc
        · simp only [List.mem_append, List.mem_singleton] at hc
          rcases hc with hc | rfl
          · exact h call hc
          · simp only [readBuf_length]
            omega
        · split at hc
          · simp only [List.mem_append, List.mem_singleton] at hc
            rcases hc with hc | rfl
            · exact h call hc
            · simp only [readBuf_length]
              omega
          · exact h call hc
  · exact h call hc

/-- The frame loop preserves the nonempty-content invariant of the
decoder call log. -/
lemma id3v2Loop_calls (junk tagSize : Nat) :
    ∀ (fuel : Nat) (metadata : MetaData) (s : ByteStream) (calls : List DecoderCall)
      (bytesRead : Nat),
      (∀ call ∈ calls, call.2.length ≠ 0) →
      ∀ call ∈ (id3v2Loop junk tagSize fuel metadata s calls bytesRead).2.2,
        call.2.length ≠ 0 := by
  intro fuel
  induction fuel with
  | zero =>
    intro md s calls br h call hc
    exact h call (by simpa [id3v2Loop] using hc)
  | succ fuel ih =>
    intro md s calls br h call hc
    simp only [id3v2Loop] at hc
    split at hc
    · split at hc
      · exact frameStep_calls junk md s calls h call (by simpa using hc)
      · exact ih _ _ _ _ (frameStep_calls junk md s calls h) call hc
    · exact h call (by simpa using hc)

/-! ### C9 -/

/-- C9: a recognized frame whose declared size is 0 never reaches the
text decoder and leaves the record untouched.  First conjunct: on every
input whatsoever, every `parseTextFrame` invocation the Modern Tag
Reader performs has content of nonzero declared size, so the decoder is
never invoked for a size-0 frame.  Second conjunct: for each of the
four recognized identifiers, a tag holding exactly one size-0 frame
with that identifier yields the all-default record and an empty decoder
call log. -/
theorem c9_zero_size_frames :
    (∀ (junk : Nat) (s : ByteStream) (metadata : MetaData),
        ∀ call ∈ (readID3v2Tag junk s metadata).2.2, call.2.length ≠ 0) ∧
    (∀ fid, fid = [84, 73, 84, 50] ∨ fid = [84, 80, 69, 49] ∨
        fid = [84, 65, 76, 66] ∨ fid = [84, 89, 69, 82] →
      (readMetadata 0 (zeroSizeFrameFile fid)).1 = .ok {} ∧
      (readID3v2Tag 0 (openStream (zeroSizeFrameFile fid)) {}).2.2 = []) := by
  constructor
  · intro junk s md
    simp only [readID3v2Tag]
    intro call hc
    exact id3v2Loop_calls _ _ _ _ _ _ _ (by simp) call hc
  · rintro fid (rfl | rfl | rfl | rfl) <;> exact ⟨by decide, by decide⟩

/-- C9 witness: a run with one logged `TIT2` call of size 2, and the
size-0 `TIT2` frame file. -/
theorem c9_zero_size_frames_witness :
    (([84, 73, 84, 50], [0, 65]) : DecoderCall).2.length ≠ 0 ∧
    ((readMetadata 0 (zeroSizeFrameFile [84, 73, 84, 50])).1 = .ok {} ∧
     (readID3v2Tag 0 (openStream (zeroSizeFrameFile [84, 73, 84, 50])) {}).2.2 = []) :=
  ⟨c9_zero_size_frames.1 0 (openStream smallTit2File) {} ([84, 73, 84, 50], [0, 65]) (by decide),
   c9_zero_size_frames.2 [84, 73, 84, 50] (Or.inl rfl)⟩

/-! ### C1 -/

/-- C1 (the code at the failing input): on `overrunFile` the tag header
declares total size 30, yet the reader issues the reads
`(0,10), (10,10), (20,100)` — the last one obtains 100 bytes at offsets
20..119, all within the 120-byte file but far past the declared 30-byte
tag boundary, contradicting the claim that no read consumes bytes past
the boundary into adjacent file data. -/
theorem c1_boundary_overrun :
    (decodeSynchsafeInt 0 0 0 30).toNat = 30 ∧
    overrunFile.length = 120 ∧
    (readID3v2Tag 0 (openStream overrunFile) {}).2.1.reads = [(0, 10), (10, 10), (20, 100)] ∧
    (∃ rd ∈ (readID3v2Tag 0 (openStream overrunFile) {}).2.1.reads,
      30 < rd.1 + rd.2 ∧ rd.1 + rd.2 ≤ overrunFile.length) := by decide

/-! ### C2 -/

/-- C2 (the code at the failing input): on the 6-byte file
`"ID3" ++ [0,0,0]` the 10-byte tag header read comes up short, yet
`readMetadata` still returns a Metadata Record — for every value of the
indeterminate buffer bytes — instead of surfacing a read failure; with
zeroed indeterminate bytes the returned record is the default one. -/
theorem c2_short_read_swallowed :
    (∀ junk : Nat, ∃ m : MetaData, (readMetadata junk [73, 68, 51, 0, 0, 0]).1 = .ok m) ∧
    (readMetadata 0 [73, 68, 51, 0, 0, 0]).1 = .ok {} := by
  refine ⟨fun junk => ⟨_, rfl⟩, by decide⟩

/-! ### C8 -/

lemma and127_idem (x : Nat) : (x &&& 127) &&& 127 = x &&& 127 := by
  rw [Nat.and_assoc]
  rfl

lemma ssEnc_byte_lt (x : Nat) : x &&& 127 < 256 := by
  have := Nat.and_lt_two_pow x (show (127 : Nat) < 2 ^ 7 by norm_num)
  omega

lemma ssEnc_decode (n : Nat) (h : n < 2 ^ 28) :
    (decodeSynchsafeInt (n >>> 21 &&& 127) (n >>> 14 &&& 127) (n >>> 7 &&& 127)
      (n &&& 127)).toNat = n := by
  rw [decodeSynchsafeInt_eq _ _ _ _ (ssEnc_byte_lt _) (ssEnc_byte_lt _)
    (ssEnc_byte_lt _) (ssEnc_byte_lt _)]
  rw [Int.toNat_natCast]
  rw [and127_idem, and127_idem, and127_idem, and127_idem]
  apply Nat.eq_of_testBit_eq
  intro i
  simp only [Nat.testBit_lor, Nat.testBit_shiftLeft, Nat.testBit_land,
    Nat.testBit_shiftRight]
  rw [show (127 : Nat) = 2 ^ 7 - 1 by norm_num]
  simp only [Nat.testBit_two_pow_sub_one]
  by_cases h7 : i < 7
  · have e21 : ¬ (21 ≤ i) := by omega
    have e14 : ¬ (14 ≤ i) := by omega
    have e7 : ¬ (7 ≤ i) := by omega
    simp [e21, e14, e7, h7]
  · by_cases h14 : i < 14
    · have h7' : 7 ≤ i := by omega
      have e21 : ¬ (21 ≤ i) := by omega
      have e14 : ¬ (14 ≤ i) := by omega
      have eidx : 7 + (i - 7) = i := by omega
      have elt : i - 7 < 7 := by omega
      simp [h7', e21, e14, eidx, elt, h7]
    · by_cases h21 : i < 21
      · have h14' : 14 ≤ i := by omega
        have e21 : ¬ (21 ≤ i) := by omega
        have eidx : 14 + (i - 14) = i := by omega
        have elt : i - 14 < 7 := by omega
        have elt7 : ¬ (i - 7 < 7) := by omega
        simp [h14', e21, eidx, elt, elt7, h7]
      · by_cases h28 : i < 28
        · have h21' : 21 ≤ i := by omega
          have eidx : 21 + (i - 21) = i := by omega
          have elt : i - 21 < 7 := by omega
          have elt14 : ¬ (i - 14 < 7) := by omega
          have elt7 : ¬ (i - 7 < 7) := by omega
          simp [h21', eidx, elt, elt14, elt7, h7]
        · have hbit : n.testBit i = false :=
            Nat.testBit_lt_two_pow
              (lt_of_lt_of_le h (Nat.pow_le_pow_right (by norm_num) (by omega)))
          have elt21 : ¬ (i - 21 < 7) := by omega
          have elt14 : ¬ (i - 14 < 7) := by omega
          have elt7 : ¬ (i - 7 < 7) := by omega
          simp [hbit, elt21, elt14, elt7, h7]



lemma parseTextFrame_enc0 (t : List Nat) : parseTextFrame (0 :: t) = t := by
  simp [parseTextFrame]

lemma oneTit2File_cons (P : List Nat) :
    oneTit2File P = 73 :: 68 :: 51 :: 4 :: 0 :: 0 ::
      ((21 + P.length) >>> 21 &&& 127) :: ((21 + P.length) >>> 14 &&& 127) ::
      ((21 + P.length) >>> 7 &&& 127) :: ((21 + P.length) &&& 127) ::
      84 :: 73 :: 84 :: 50 ::
      ((1 + P.length) >>> 21 &&& 127) :: ((1 + P.length) >>> 14 &&& 127) ::
      ((1 + P.length) >>> 7 &&& 127) :: ((1 + P.length) &&& 127) ::
      0 :: 0 :: 0 :: P := by
  simp [oneTit2File, ssEnc]

lemma oneTit2File_length (P : List Nat) : (oneTit2File P).length = 21 + P.length := by
  rw [oneTit2File_cons]
  simp only [List.length_cons]
  omega

lemma readMetadata_oneTit2 (P : List Nat) (hP : P.length + 21 < 2 ^ 28) :
    (readMetadata 0 (oneTit2File P)).1 = .ok { title := P } := by
  have hlen := oneTit2File_length P
  have htake3 : (oneTit2File P).take 3 = [73, 68, 51] := by
    rw [oneTit2File_cons]
    rfl
  simp only [readMetadata, hasID3v2Tag_eval 0 (oneTit2File P) (by omega)]
  rw [if_pos (by rw [decide_eq_true_eq]; exact htake3)]
  show Except.ok (readID3v2Tag 0
      { data := oneTit2File P, pos := 3, fail := false, reads := [(0, 3)] } {}).1 =
    Except.ok { title := P }
  refine congrArg Except.ok ?_
  have hrb1 : readBuf 0 10
      { data := oneTit2File P, pos := 0, fail := false, reads := [(0, 3)] } =
      ([73, 68, 51, 4, 0, 0,
        (21 + P.length) >>> 21 &&& 127, (21 + P.length) >>> 14 &&& 127,
        (21 + P.length) >>> 7 &&& 127, (21 + P.length) &&& 127],
       { data := oneTit2File P, pos := 10, fail := false,
         reads := [(0, 3), (0, 10)] }) := by
    rw [readBuf_ok 0 10 _ rfl
      (by show 0 + 10 ≤ (oneTit2File P).length; rw [hlen]; omega)]
    rw [show oneTit2File P = _ from oneTit2File_cons P]
    rfl
  have hrb2 : readBuf 0 10
      { data := oneTit2File P, pos := 10, fail := false, reads := [(0, 3), (0, 10)] } =
      ([84, 73, 84, 50,
        (1 + P.length) >>> 21 &&& 127, (1 + P.length) >>> 14 &&& 127,
        (1 + P.length) >>> 7 &&& 127, (1 + P.length) &&& 127, 0, 0],
       { data := oneTit2File P, pos := 20, fail := false,
         reads := [(0, 3), (0, 10), (10, 10)] }) := by
    rw [readBuf_ok 0 10 _ rfl
      (by show 10 + 10 ≤ (oneTit2File P).length; rw [hlen]; omega)]
    rw [show oneTit2File P = _ from oneTit2File_cons P]
    rfl
  have hdrop20 : (oneTit2File P).drop 20 = 0 :: P := by
    rw [oneTit2File_cons]
    rfl
  have hrb3 : readBuf 0 (P.length + 1)
      { data := oneTit2File P, pos := 20, fail := false,
        reads := [(0, 3), (0, 10), (10, 10)] } =
      (0 :: P,
       { data := oneTit2File P, pos := 20 + (P.length + 1), fail := false,
         reads := [(0, 3), (0, 10), (10, 10), (20, P.length + 1)] }) := by
    rw [readBuf_ok 0 (P.length + 1) _ rfl
      (by show 20 + (P.length + 1) ≤ (oneTit2File P).length; rw [hlen]; omega)]
    refine Prod.ext ?_ ?_
    · show ((oneTit2File P).drop 20).take (P.length + 1) = 0 :: P
      rw [hdrop20, List.take_succ_cons, List.take_length]
    · rfl
  have hts : (decodeSynchsafeInt ((21 + P.length) >>> 21 &&& 127)
      ((21 + P.length) >>> 14 &&& 127) ((21 + P.length) >>> 7 &&& 127)
      ((21 + P.length) &&& 127)).toNat = 21 + P.length :=
    ssEnc_decode (21 + P.length) (by omega)
  have hfs : (decodeSynchsafeInt ((1 + P.length) >>> 21 &&& 127)
      ((1 + P.length) >>> 14 &&& 127) ((1 + P.length) >>> 7 &&& 127)
      ((1 + P.length) &&& 127)).toNat = P.length + 1 :=
    (ssEnc_decode (1 + P.length) (by omega)).trans (by omega)
  have hstep : frameStep 0 {}
      { data := oneTit2File P, pos := 10, fail := false, reads := [(0, 3), (0, 10)] } [] =
      ({ title := P },
       { data := oneTit2File P, pos := 20 + (P.length + 1), fail := false,
         reads := [(0, 3), (0, 10), (10, 10), (20, P.length + 1)] },
       [([84, 73, 84, 50], 0 :: P)], P.length + 1) := by
    simp only [frameStep]
    rw [hrb2]
    simp only [List.getD_cons_succ, List.getD_cons_zero]
    rw [hfs]
    rw [if_pos (by omega)]
    rw [hrb3]
    rw [show ([84, 73, 84, 50, (1 + P.length) >>> 21 &&& 127, (1 + P.length) >>> 14 &&& 127, (1 + P.length) >>> 7 &&& 127, (1 + P.length) &&& 127, 0, 0] : List Nat).take 4 = [84, 73, 84, 50] from rfl]
    rw [if_pos rfl]
    rw [parseTextFrame_enc0]
    simp
  have hseek :
      seekStart { data := oneTit2File P, pos := 3, fail := false, reads := [(0, 3)] } =
      { data := oneTit2File P, pos := 0, fail := false, reads := [(0, 3)] } := rfl
  simp only [readID3v2Tag]
  rw [hseek, hrb1]
  simp only [List.getD_cons_succ, List.getD_cons_zero]
  rw [hts]
  rw [show 21 + P.length = (20 + P.length) + 1 from by omega]
  simp only [id3v2Loop]
  rw [if_pos (by omega)]
  rw [hstep]
  rw [if_pos (show (20 + P.length) + 1 ≤ 10 + 10 + (P.length + 1) from by omega)]

/-- C8 counterexample: the claim's concrete scenario taken literally.
`hello6File` has a modern header declaring total size 42 and one `TIT2`
frame whose declared size is 6 while its content region is laid out as
encoding byte 0 plus `H`,`e`,`l`,`l`,`o`,`0x00`.  The reader reads only
the 6 declared bytes, so the returned title is the five bytes `"Hello"`,
not the claimed six bytes with the trailing NUL. -/
theorem c8_size6_counterexample :
    (readMetadata 0 hello6File).1 = .ok { title := [72, 101, 108, 108, 111] } ∧
    ({ title := [72, 101, 108, 108, 111] } : MetaData) ≠
      { title := [72, 101, 108, 108, 111, 0] } := by decide

/-- C8 (amended): for every well-formed modern-tag input consisting of a
single `TIT2` frame whose content is encoding byte 0 followed by the
bytes `P`, `readMetadata` returns a record whose title equals `P`
exactly, with no trimming; and in the concrete scenario with total size
42, the frame must declare size 7 (encoding byte plus the six text
bytes `H`,`e`,`l`,`l`,`o`,`0x00`) for the returned title to be those six
bytes including the trailing NUL. -/
theorem c8_tit2_ascii_title :
    (∀ P : List Nat, P.length + 21 < 2 ^ 28 →
      (readMetadata 0 (oneTit2File P)).1 = .ok { title := P }) ∧
    (readMetadata 0 hello7File).1 = .ok { title := [72, 101, 108, 108, 111, 0] } :=
  ⟨fun P hP => readMetadata_oneTit2 P hP, by decide⟩

/-- C8 witness: the amended theorem applied at the one-byte payload
`[72]`, plus its closed concrete conjunct. -/
theorem c8_tit2_ascii_title_witness :
    (([72] : List Nat).length + 21 < 2 ^ 28 ∧
     (readMetadata 0 (oneTit2File [72])).1 = .ok { title := [72] }) ∧
    (readMetadata 0 hello7File).1 = .ok { title := [72, 101, 108, 108, 111, 0] } :=
  ⟨⟨by decide, c8_tit2_ascii_title.1 [72] (by decide)⟩, c8_tit2_ascii_title.2⟩

end MP3MetaDataReader
